import Mathlib

/-!
Verification of the HjorthagshojdenLogger register model and decoding engine.

Shallow embedding of `ew1_reader.py` and `scan_registers.py`:
* raw protocol words are `Nat` (the device delivers 16-bit unsigned words);
* Python floats are embedded as rationals (`ℚ`); every value the decoder
  produces on the integer encodings is an integer, hence exact;
* Python exceptions are an explicit `Except` layer; an exception caught by
  the source's `try/except` never appears in the caller-visible result;
* the pymodbus transport is a collaborator record: a connect flag plus a
  read function per bank, whose responses expose `isError`, and either a
  word list (`registers`, holding/input banks) or a bit list (`bits`,
  coil/discrete banks).
-/

set_option autoImplicit false

namespace HjorthagshojdenLog

/-- Python exception classes that appear in the embedded code paths. -/
inductive PyExn where
  | connectionError
  | runtimeError
  | modbusException
  | attributeError
  | indexError
  | otherException
deriving DecidableEq

/-- A pymodbus read response: `isError()` plus the payload attributes.
Holding/input responses carry `registers`; coil/discrete responses carry
`bits` and do not expose a usable `registers` attribute. -/
structure ModbusResponse where
  isError : Bool
  registers : Option (List Nat)
  bits : Option (List Bool)

/-- The transport collaborator (`ModbusTcpClient`): whether `connect()`
succeeds, and the bank read methods (keyed by the bank-kind string the
dispatch selects), which either return a response or raise. -/
structure Transport where
  connectOk : Bool
  read : String → Int → Nat → Except PyExn ModbusResponse

/-- One read request issued to the transport (bank kind, address, count). -/
structure ReadCall where
  bank : String
  address : Int
  count : Nat
deriving DecidableEq

/-- `RegisterDefinition` from `ew1_reader.py` (the spec's RegisterSpec). -/
structure RegisterDefinition where
  address : Int
  name : String
  description : String
  register_type : String := "holding"
  count : Nat := 1
  data_type : String := "uint16"
  scale : ℚ := 1
  unit : String := ""

/-- Exact rational value of the IEEE-754 binary32 number formed by the
big-endian word pair `(r0, r1)` — the `struct.unpack` of the `float32`
branch. Finite values are represented exactly; the exponent-255 payloads
(infinities, NaN) have no rational value and are outside this embedding
(no claim evaluates the `float32` branch). -/
def float32ToRat (r0 r1 : Nat) : ℚ :=
  let bits : Nat := ((r0 % 65536) <<< 16) ||| (r1 % 65536)
  let sign : Nat := bits / 2 ^ 31
  let expo : Nat := (bits / 2 ^ 23) % 2 ^ 8
  let mant : Nat := bits % 2 ^ 23
  let mag : ℚ :=
    if expo = 0 then (mant : ℚ) * (2 : ℚ) ^ (-(149 : ℤ))
    else ((2 ^ 23 + mant : Nat) : ℚ) * (2 : ℚ) ^ ((expo : ℤ) - 150)
  if sign = 1 then -mag else mag

/-- `EW1Reader._convert_raw_value`: decode a raw word list according to the
`data_type` tag. Accessing a missing word (`registers[0]`, `registers[1]`)
raises `IndexError`; the final `else` of the source silently returns the
first word for any unrecognized tag. -/
def convert_raw_value (registers : List Nat) (data_type : String) : Except PyExn ℚ :=
  if data_type = "uint16" then
    match registers with
    | [] => Except.error PyExn.indexError
    | r0 :: _ => Except.ok ((r0 : ℚ))
  else if data_type = "int16" then
    match registers with
    | [] => Except.error PyExn.indexError
    | r0 :: _ =>
        Except.ok (if 0x8000 ≤ r0 then (r0 : ℚ) - 0x10000 else (r0 : ℚ))
  else if data_type = "uint32" then
    match registers with
    | r0 :: r1 :: _ => Except.ok ((((r0 <<< 16) ||| r1 : Nat) : ℚ))
    | _ => Except.error PyExn.indexError
  else if data_type = "int32" then
    match registers with
    | r0 :: r1 :: _ =>
        Except.ok (if 0x80000000 ≤ ((r0 <<< 16) ||| r1 : Nat) then
            ((((r0 <<< 16) ||| r1 : Nat) : ℚ)) - 0x100000000
          else ((((r0 <<< 16) ||| r1 : Nat) : ℚ)))
    | _ => Except.error PyExn.indexError
  else if data_type = "float32" then
    match registers with
    | r0 :: r1 :: _ => Except.ok (float32ToRat r0 r1)
    | _ => Except.error PyExn.indexError
  else
    match registers with
    | [] => Except.error PyExn.indexError
    | r0 :: _ => Except.ok ((r0 : ℚ))

/-- Reduction of the decoder at the `"int16"` tag. -/
lemma convert_int16_cons (r0 : Nat) (rest : List Nat) :
    convert_raw_value (r0 :: rest) ("int16") =
      Except.ok (if 0x8000 ≤ r0 then (r0 : ℚ) - 0x10000 else (r0 : ℚ)) := rfl

/-- Reduction of the decoder at the `"uint32"` tag. -/
lemma convert_uint32_cons (r0 r1 : Nat) (rest : List Nat) :
    convert_raw_value (r0 :: r1 :: rest) ("uint32") =
      Except.ok ((((r0 <<< 16) ||| r1 : Nat) : ℚ)) := rfl

/-- Reduction of the decoder at the `"int32"` tag. -/
lemma convert_int32_cons (r0 r1 : Nat) (rest : List Nat) :
    convert_raw_value (r0 :: r1 :: rest) ("int32") =
      Except.ok (if 0x80000000 ≤ ((r0 <<< 16) ||| r1 : Nat) then
          ((((r0 <<< 16) ||| r1 : Nat) : ℚ)) - 0x100000000
        else ((((r0 <<< 16) ||| r1 : Nat) : ℚ))) := rfl

/-- C1: for every 16-bit word `w`, decoding `[w]` as INT16 gives `w` when
`w < 0x8000` and `w − 65536` otherwise; concretely `[65526] ↦ −10`,
`[0x8000] ↦ −32768`, `[0] ↦ 0`. -/
theorem int16_decode_signed :
    (∀ w : Nat, w ≤ 65535 →
      convert_raw_value [w] ("int16") =
        Except.ok (if w < 0x8000 then (w : ℚ) else (w : ℚ) - 65536)) ∧
    convert_raw_value [65526] ("int16") = Except.ok (-10) ∧
    convert_raw_value [0x8000] ("int16") = Except.ok (-32768) ∧
    convert_raw_value [0] ("int16") = Except.ok 0 := by
  refine ⟨?_, by rw [convert_int16_cons]; norm_num,
    by rw [convert_int16_cons]; norm_num, by rw [convert_int16_cons]; norm_num⟩
  intro w _
  rw [convert_int16_cons]
  rcases le_or_lt 0x8000 w with h | h
  · rw [if_pos h, if_neg (by omega)]
  · rw [if_neg (by omega), if_pos h]

/-- Witness for C1 at `w = 65526`. -/
theorem int16_decode_signed_witness :
    convert_raw_value [65526] ("int16") =
      Except.ok (if 65526 < 0x8000 then ((65526 : Nat) : ℚ) else ((65526 : Nat) : ℚ) - 65536) :=
  int16_decode_signed.1 65526 (by norm_num)

/-- C2: for 16-bit words `(hi, lo)`, UINT32 decoding of `[hi, lo]` gives the
raw value `(hi <<< 16) ||| lo`, which lies below `2^32`, and INT32 decoding
gives that raw value minus `2^32` when it is `≥ 0x80000000`, else the raw
value; concretely `[0xFFFF, 0xFFFF] ↦ −1` under INT32 and
`[1, 2] ↦ 65538` under UINT32. -/
theorem uint32_int32_decode :
    (∀ hi lo : Nat, hi ≤ 65535 → lo ≤ 65535 →
      (hi <<< 16) ||| lo < 2 ^ 32 ∧
      convert_raw_value [hi, lo] ("uint32") =
        Except.ok ((((hi <<< 16) ||| lo : Nat) : ℚ)) ∧
      convert_raw_value [hi, lo] ("int32") =
        Except.ok (if 0x80000000 ≤ ((hi <<< 16) ||| lo : Nat) then
            ((((hi <<< 16) ||| lo : Nat) : ℚ)) - 0x100000000
          else ((((hi <<< 16) ||| lo : Nat) : ℚ)))) ∧
    convert_raw_value [0xFFFF, 0xFFFF] ("int32") = Except.ok (-1) ∧
    convert_raw_value [1, 2] ("uint32") = Except.ok 65538 := by
  have hff : ((65535 : Nat) <<< 16 ||| 65535) = 4294967295 := by decide
  have h12 : ((1 : Nat) <<< 16 ||| 2) = 65538 := by decide
  refine ⟨?_, by rw [convert_int32_cons, hff]; norm_num,
    by rw [convert_uint32_cons, h12]; norm_num⟩
  intro hi lo hhi hlo
  refine ⟨?_, convert_uint32_cons hi lo [], convert_int32_cons hi lo []⟩
  have h1 : hi <<< 16 < 2 ^ 32 := by
    rw [Nat.shiftLeft_eq]
    calc hi * 2 ^ 16 ≤ 65535 * 2 ^ 16 := Nat.mul_le_mul_right _ hhi
      _ < 2 ^ 32 := by norm_num
  have h2 : lo < 2 ^ 32 := by omega
  exact Nat.or_lt_two_pow h1 h2

/-- Witness for C2 at `(hi, lo) = (1, 2)`. -/
theorem uint32_int32_decode_witness :
    (1 : Nat) <<< 16 ||| 2 < 2 ^ 32 ∧
    convert_raw_value [1, 2] ("uint32") =
      Except.ok ((((1 <<< 16) ||| 2 : Nat) : ℚ)) :=
  ⟨(uint32_int32_decode.1 1 2 (by norm_num) (by norm_num)).1,
   (uint32_int32_decode.1 1 2 (by norm_num) (by norm_num)).2.1⟩

/-- One candidate reading produced by `scan_registers.interpret_value`
(the formatted string is abstracted to its tag and numeric payload). -/
inductive Interpretation where
  | uint16Reading (v : Nat)
  | int16Reading (s : Int)
  | tempReading (t : ℚ)
  | pctReading (p : ℚ)
deriving DecidableEq

/-- `scan_registers.interpret_value`: the list of candidate readings for a
raw 16-bit word, built in the source's order — unsigned always, signed when
it differs, temperature at ÷10 under strict bounds, percentage at ÷10 under
inclusive bounds. -/
def interpret_value (value : Nat) : List Interpretation :=
  let base := [Interpretation.uint16Reading value]
  let signed : Int := if value < 0x8000 then (value : Int) else (value : Int) - 0x10000
  let withSigned :=
    if signed ≠ (value : Int) then base ++ [Interpretation.int16Reading signed] else base
  let temp : ℚ := (value : ℚ) / 10
  let withTemp :=
    if -50 < temp ∧ temp < 150 then withSigned ++ [Interpretation.tempReading temp]
    else withSigned
  if 0 ≤ value ∧ value ≤ 1000 then
    withTemp ++ [Interpretation.pctReading ((value : ℚ) / 10)]
  else withTemp

/-- `interpret_value` as a concatenation of its four candidate segments. -/
lemma interpret_value_def (v : Nat) :
    interpret_value v =
      [Interpretation.uint16Reading v] ++
      (if (if v < 0x8000 then (v : Int) else (v : Int) - 0x10000) ≠ (v : Int) then
        [Interpretation.int16Reading (if v < 0x8000 then (v : Int) else (v : Int) - 0x10000)]
      else []) ++
      (if -50 < (v : ℚ) / 10 ∧ (v : ℚ) / 10 < 150 then
        [Interpretation.tempReading ((v : ℚ) / 10)] else []) ++
      (if 0 ≤ v ∧ v ≤ 1000 then [Interpretation.pctReading ((v : ℚ) / 10)] else []) := by
  simp only [interpret_value]
  split_ifs <;> simp

/-- Membership in a conditional singleton segment. -/
lemma mem_ite_singleton {α : Type} (c : Prop) [Decidable c] (x a : α) :
    a ∈ (if c then [x] else ([] : List α)) ↔ c ∧ a = x := by
  split_ifs with h <;> simp [h]

/-- C6: `interpret_value` always includes the raw unsigned reading, includes
the signed reading exactly when `v ≥ 0x8000` (with value `v − 0x10000`),
includes the ÷10 temperature candidate exactly when `−50 < v/10 < 150`
(strict), and the ÷10 percentage candidate exactly when `0 ≤ v ≤ 1000`
(inclusive); concretely `interpret_value 250` carries temperature 25 and
percentage 25, `interpret_value 2000` carries no temperature candidate,
`interpret_value 1001` carries no percentage candidate, and
`interpret_value 1000` carries percentage 100. -/
theorem interpret_value_candidates :
    (∀ v : Nat, v ≤ 65535 →
      Interpretation.uint16Reading v ∈ interpret_value v ∧
      (∀ s : Int, Interpretation.int16Reading s ∈ interpret_value v ↔
        (0x8000 ≤ v ∧ s = (v : Int) - 0x10000)) ∧
      (∀ t : ℚ, Interpretation.tempReading t ∈ interpret_value v ↔
        (t = (v : ℚ) / 10 ∧ -50 < t ∧ t < 150)) ∧
      (∀ p : ℚ, Interpretation.pctReading p ∈ interpret_value v ↔
        (p = (v : ℚ) / 10 ∧ 0 ≤ v ∧ v ≤ 1000))) ∧
    Interpretation.tempReading 25 ∈ interpret_value 250 ∧
    Interpretation.pctReading 25 ∈ interpret_value 250 ∧
    (¬ ∃ t : ℚ, Interpretation.tempReading t ∈ interpret_value 2000) ∧
    (¬ ∃ p : ℚ, Interpretation.pctReading p ∈ interpret_value 1001) ∧
    Interpretation.pctReading 100 ∈ interpret_value 1000 := by
  have main : ∀ v : Nat, v ≤ 65535 →
      Interpretation.uint16Reading v ∈ interpret_value v ∧
      (∀ s : Int, Interpretation.int16Reading s ∈ interpret_value v ↔
        (0x8000 ≤ v ∧ s = (v : Int) - 0x10000)) ∧
      (∀ t : ℚ, Interpretation.tempReading t ∈ interpret_value v ↔
        (t = (v : ℚ) / 10 ∧ -50 < t ∧ t < 150)) ∧
      (∀ p : ℚ, Interpretation.pctReading p ∈ interpret_value v ↔
        (p = (v : ℚ) / 10 ∧ 0 ≤ v ∧ v ≤ 1000)) := by
    intro v _
    refine ⟨?_, ?_, ?_, ?_⟩
    · simp [interpret_value_def]
    · intro s
      rcases lt_or_ge v 0x8000 with h | h
      · simp only [interpret_value_def, List.mem_append, mem_ite_singleton,
          List.mem_singleton, if_pos h, Interpretation.int16Reading.injEq,
          reduceCtorEq, false_or, or_false, and_false, false_and]
        omega
      · have h' : ¬ v < 0x8000 := by omega
        simp only [interpret_value_def, List.mem_append, mem_ite_singleton,
          List.mem_singleton, if_neg h', Interpretation.int16Reading.injEq,
          reduceCtorEq, false_or, or_false, and_false, false_and]
        omega
    · intro t
      simp only [interpret_value_def, List.mem_append, mem_ite_singleton,
        List.mem_singleton, Interpretation.tempReading.injEq,
        reduceCtorEq, false_or, or_false, and_false, false_and]
      constructor
      · rintro ⟨⟨hb1, hb2⟩, rfl⟩
        exact ⟨rfl, hb1, hb2⟩
      · rintro ⟨rfl, hb1, hb2⟩
        exact ⟨⟨hb1, hb2⟩, rfl⟩
    · intro p
      simp only [interpret_value_def, List.mem_append, mem_ite_singleton,
        List.mem_singleton, Interpretation.pctReading.injEq,
        reduceCtorEq, false_or, or_false, and_false, false_and]
      constructor
      · rintro ⟨⟨h1, h2⟩, rfl⟩
        exact ⟨rfl, h1, h2⟩
      · rintro ⟨rfl, h1, h2⟩
        exact ⟨⟨h1, h2⟩, rfl⟩
  refine ⟨main, ?_, ?_, ?_, ?_, ?_⟩
  · exact ((main 250 (by norm_num)).2.2.1 25).2 (by norm_num)
  · exact ((main 250 (by norm_num)).2.2.2 25).2 (by norm_num)
  · rintro ⟨t, ht⟩
    have := ((main 2000 (by norm_num)).2.2.1 t).1 ht
    rcases this with ⟨rfl, -, hb⟩
    norm_num at hb
  · rintro ⟨p, hp⟩
    have := ((main 1001 (by norm_num)).2.2.2 p).1 hp
    rcases this with ⟨-, -, hb⟩
    omega
  · exact ((main 1000 (by norm_num)).2.2.2 100).2 (by norm_num)

/-- Witness for C6 at `v = 1000`. -/
theorem interpret_value_candidates_witness :
    Interpretation.uint16Reading 1000 ∈ interpret_value 1000 :=
  (interpret_value_candidates.1 1000 (by norm_num)).1

/-- C4 counterexample: `"unknown_type"` is none of the five recognized
encoding tags, yet the decoder succeeds on `[42]` and returns the first raw
word instead of reporting a decode failure (matching the repository's own
test `test_unknown_type_defaults_to_first_register`). -/
theorem unknown_encoding_not_explicit_failure :
    ("unknown_type" ≠ "uint16" ∧ "unknown_type" ≠ "int16" ∧
      "unknown_type" ≠ "uint32" ∧ "unknown_type" ≠ "int32" ∧
      "unknown_type" ≠ "float32") ∧
    convert_raw_value [42] ("unknown_type") = Except.ok 42 := by
  exact ⟨⟨by decide, by decide, by decide, by decide, by decide⟩, rfl⟩

/-- C4 amended: for every encoding tag outside
{UINT16, INT16, UINT32, INT32, FLOAT32}, decoding a non-empty word sequence
silently returns the first raw word (no distinct decode failure is
reported); only the empty sequence fails, with an index error. -/
theorem unknown_encoding_silent_default
    (data_type : String) (w : Nat) (rest : List Nat)
    (h1 : data_type ≠ "uint16") (h2 : data_type ≠ "int16")
    (h3 : data_type ≠ "uint32") (h4 : data_type ≠ "int32")
    (h5 : data_type ≠ "float32") :
    convert_raw_value (w :: rest) data_type = Except.ok ((w : ℚ)) ∧
    convert_raw_value [] data_type = Except.error PyExn.indexError := by
  constructor <;>
  · unfold convert_raw_value
    rw [if_neg h1, if_neg h2, if_neg h3, if_neg h4, if_neg h5]

/-- Witness for the amended C4 at tag `"unknown_type"` and words `[42]`. -/
theorem unknown_encoding_silent_default_witness :
    convert_raw_value [42] ("unknown_type") = Except.ok ((42 : ℚ)) ∧
    convert_raw_value [] ("unknown_type") = Except.error PyExn.indexError :=
  unknown_encoding_silent_default ("unknown_type") 42 []
    (by decide) (by decide) (by decide) (by decide) (by decide)

/-- Reading the `registers` attribute of a response: holding/input responses
carry it, but a coil/discrete response exposes `bits` instead and the
attribute access raises (in newer pymodbus versions it is an empty list and
`registers[0]` raises instead; either exception lands in the same
`except Exception` handler of `_read_register`). -/
def responseWords (resp : ModbusResponse) : Except PyExn (List Nat) :=
  match resp.registers with
  | some ws => Except.ok ws
  | none => Except.error PyExn.attributeError

/-- The body of `EW1Reader._read_register` for one known bank kind: issue
the bank read, map a transport exception or `isError()` response to `None`,
otherwise decode `result.registers` with `_convert_raw_value` and multiply
by `scale`; every exception raised inside the `try` is caught and becomes
`None`. Returns the read calls issued paired with the resulting value. -/
def readDispatched (t : Transport) (rtype : String) (reg : RegisterDefinition) :
    List ReadCall × Option ℚ :=
  ( [ReadCall.mk rtype reg.address reg.count],
    match t.read rtype reg.address reg.count with
    | Except.error _ => none
    | Except.ok result =>
      if result.isError then none
      else
        match responseWords result with
        | Except.error _ => none
        | Except.ok regs =>
          match convert_raw_value regs reg.data_type with
          | Except.error _ => none
          | Except.ok raw => some (raw * reg.scale) )

/-- `EW1Reader._read_register` on a connected client: dispatch on the
`register_type` string; an unrecognized bank kind prints a message and
returns `None` without issuing any read. -/
def readConnected (t : Transport) (reg : RegisterDefinition) :
    List ReadCall × Option ℚ :=
  if reg.register_type = "holding" then readDispatched t ("holding") reg
  else if reg.register_type = "input" then readDispatched t ("input") reg
  else if reg.register_type = "coil" then readDispatched t ("coil") reg
  else if reg.register_type = "discrete" then readDispatched t ("discrete") reg
  else ([], none)

/-- `EW1Reader._read_register` including the connection guard: raises
`RuntimeError` when `self._client` is `None`, otherwise never raises. -/
def _read_register (client : Option Transport) (reg : RegisterDefinition) :
    Except PyExn (List ReadCall × Option ℚ) :=
  match client with
  | none => Except.error PyExn.runtimeError
  | some t => Except.ok (readConnected t reg)

/-- Python dict assignment `d[k] = v`: overwrite in place when the key is
present, append otherwise. -/
def dictInsert (d : List (String × Option ℚ)) (k : String) (v : Option ℚ) :
    List (String × Option ℚ) :=
  if d.any (fun p => p.1 == k) then
    d.map (fun p => if p.1 == k then (k, v) else p)
  else d ++ [(k, v)]

/-- `EW1Reader.read_all_registers` on a connected client: poll every
configured spec in declaration order, recording `reg.name ↦ value` in the
results dict; also returns the accumulated trace of issued reads. -/
def read_all_registers (t : Transport) (regs : List RegisterDefinition) :
    List ReadCall × List (String × Option ℚ) :=
  regs.foldl
    (fun acc reg =>
      (acc.1 ++ (readConnected t reg).1,
        dictInsert acc.2 reg.name (readConnected t reg).2))
    ([], [])

/-- `EW1Reader.read_all_registers` including the connection guard: with no
client, the first `_read_register` call raises `RuntimeError` (an empty
register list never reaches it). -/
def read_all_registers_m (client : Option Transport) (regs : List RegisterDefinition) :
    Except PyExn (List ReadCall × List (String × Option ℚ)) :=
  match client, regs with
  | none, [] => Except.ok ([], [])
  | none, _ :: _ => Except.error PyExn.runtimeError
  | some t, rs => Except.ok (read_all_registers t rs)

/-- `EW1Reader.read_register` (pollOne): linear search for the first spec
with the requested name; found → `_read_register` it, absent → `None`. -/
def read_register (client : Option Transport) (regs : List RegisterDefinition)
    (name : String) : Except PyExn (Option ℚ) :=
  match regs.find? (fun r => r.name == name) with
  | some reg =>
      match _read_register client reg with
      | Except.error e => Except.error e
      | Except.ok res => Except.ok res.2
  | none => Except.ok none

/-- The coil spec of the C5 analysis: a coil-bank register with default
decoding and unit scale. -/
def coilSpec : RegisterDefinition :=
  { address := 0, name := "relay", description := "Relay",
    register_type := "coil", count := 1, data_type := "uint16",
    scale := 1, unit := "" }

/-- A transport whose every read succeeds with a coil/discrete response
carrying a single set bit — the shape the Transport contract gives
coil/discrete reads. -/
def bitOkTransport : Transport :=
  { connectOk := true,
    read := fun _ _ _ =>
      Except.ok { isError := false, registers := none, bits := some [true] } }

/-- C5 evaluation: polling a COIL spec whose bit read succeeds with the bit
set does NOT yield 1.0 — `_read_register` feeds `result.registers` (absent
on a bit-bank response) to the word decoder, the raised exception is caught,
and the poll records `None` for the spec. -/
theorem coil_poll_returns_none :
    readConnected bitOkTransport coilSpec =
      ([ReadCall.mk ("coil") 0 1], none) ∧
    (ModbusResponse.registers
      { isError := false, registers := none, bits := some [true] }) = none := by
  exact ⟨rfl, rfl⟩

/-- A known-bank spec issues exactly its one bank read. -/
lemma readConnected_fst_known (t : Transport) (reg : RegisterDefinition)
    (h : reg.register_type = "holding" ∨ reg.register_type = "input" ∨
      reg.register_type = "coil" ∨ reg.register_type = "discrete") :
    (readConnected t reg).1 = [ReadCall.mk reg.register_type reg.address reg.count] := by
  unfold readConnected
  rcases h with h | h | h | h
  · rw [h, if_pos rfl]; rfl
  · rw [h, if_neg (by decide), if_pos rfl]; rfl
  · rw [h, if_neg (by decide), if_neg (by decide), if_pos rfl]; rfl
  · rw [h, if_neg (by decide), if_neg (by decide), if_neg (by decide), if_pos rfl]; rfl

/-- Unfolding the `read_all_registers` fold into its two components. -/
lemma read_all_foldl (t : Transport) (regs : List RegisterDefinition)
    (acc : List ReadCall × List (String × Option ℚ)) :
    regs.foldl
      (fun acc reg =>
        (acc.1 ++ (readConnected t reg).1,
          dictInsert acc.2 reg.name (readConnected t reg).2)) acc =
      (acc.1 ++ (regs.map (fun r => (readConnected t r).1)).flatten,
        regs.foldl (fun d reg => dictInsert d reg.name (readConnected t reg).2) acc.2) := by
  induction regs generalizing acc with
  | nil => simp
  | cons r rs ih => simp [ih, List.append_assoc]

/-- Inserting a key absent from the dict appends the pair at the end. -/
lemma dictInsert_absent (d : List (String × Option ℚ)) (k : String) (v : Option ℚ)
    (h : ∀ p ∈ d, p.1 ≠ k) :
    dictInsert d k v = d ++ [(k, v)] := by
  have hfalse : (d.any (fun p => p.1 == k)) = false := by
    rw [List.any_eq_false]
    intro p hp
    simpa using h p hp
  simp [dictInsert, hfalse]

/-- The dict fold over pairwise-fresh names appends one entry per spec. -/
lemma dict_foldl_nodup (t : Transport) (regs : List RegisterDefinition)
    (acc : List (String × Option ℚ))
    (hnd : (regs.map RegisterDefinition.name).Nodup)
    (hacc : ∀ p ∈ acc, ∀ r ∈ regs, p.1 ≠ r.name) :
    regs.foldl (fun d reg => dictInsert d reg.name (readConnected t reg).2) acc =
      acc ++ regs.map (fun r => (r.name, (readConnected t r).2)) := by
  induction regs generalizing acc with
  | nil => simp
  | cons r rs ih =>
    have hnd2 : (r.name :: rs.map RegisterDefinition.name).Nodup := by
      simpa using hnd
    have hnd' := List.nodup_cons.mp hnd2
    simp only [List.foldl_cons]
    rw [dictInsert_absent acc r.name _
      (fun p hp => hacc p hp r (List.mem_cons_self r rs))]
    have hfresh : ∀ p ∈ acc ++ [(r.name, (readConnected t r).2)],
        ∀ r' ∈ rs, p.1 ≠ r'.name := by
      intro p hp r' hr'
      rcases List.mem_append.mp hp with h | h
      · exact hacc p h r' (List.mem_cons_of_mem r hr')
      · have hpr : p = (r.name, (readConnected t r).2) := by simpa using h
        rw [hpr]
        intro he
        apply hnd'.1
        rw [show r.name = r'.name from he]
        exact List.mem_map_of_mem RegisterDefinition.name hr'
    rw [ih (acc ++ [(r.name, (readConnected t r).2)]) hnd'.2 hfresh]
    simp

/-- Looking a spec's name up in the per-spec entry list finds its value. -/
lemma lookup_map_name (regs : List RegisterDefinition)
    (g : RegisterDefinition → Option ℚ) (a : RegisterDefinition)
    (hnd : (regs.map RegisterDefinition.name).Nodup) (ha : a ∈ regs) :
    List.lookup a.name (regs.map (fun r => (r.name, g r))) = some (g a) := by
  induction regs with
  | nil => cases ha
  | cons r rs ih =>
    have hnd2 : (r.name :: rs.map RegisterDefinition.name).Nodup := by
      simpa using hnd
    have hnd' := List.nodup_cons.mp hnd2
    rcases List.mem_cons.mp ha with rfl | hmem
    · simp [List.lookup]
    · have hne : r.name ≠ a.name := by
        intro he
        exact hnd'.1 (he ▸ List.mem_map_of_mem RegisterDefinition.name hmem)
      have hbe : (a.name == r.name) = false :=
        beq_eq_false_iff_ne.mpr (fun he => hne he.symm)
      simp only [List.map_cons, List.lookup, hbe]
      exact ih hnd'.2 hmem

/-- The results dict of a poll over pairwise-distinct names, in closed form. -/
lemma read_all_snd_eq (t : Transport) (regs : List RegisterDefinition)
    (hnd : (regs.map RegisterDefinition.name).Nodup) :
    (read_all_registers t regs).2 =
      regs.map (fun r => (r.name, (readConnected t r).2)) := by
  unfold read_all_registers
  rw [read_all_foldl]
  simpa using dict_foldl_nodup t regs [] hnd (by simp)

/-- The read trace of a poll over known bank kinds, in closed form. -/
lemma read_all_fst_eq (t : Transport) (regs : List RegisterDefinition)
    (hbanks : ∀ r ∈ regs, r.register_type = "holding" ∨ r.register_type = "input" ∨
      r.register_type = "coil" ∨ r.register_type = "discrete") :
    (read_all_registers t regs).1 =
      regs.map (fun r => ReadCall.mk r.register_type r.address r.count) := by
  unfold read_all_registers
  rw [read_all_foldl]
  simp only [List.nil_append]
  induction regs with
  | nil => rfl
  | cons r rs ih =>
    simp only [List.map_cons, List.flatten_cons]
    rw [readConnected_fst_known t r (hbanks r (List.mem_cons_self r rs)),
      ih (fun r' hr' => hbanks r' (List.mem_cons_of_mem r hr'))]
    rfl

/-- C3: over a register set with distinct names and known bank kinds, a full
poll on a connected transport raises nothing, issues exactly one bank read
per spec in declaration order, skips no spec, and whenever one spec's read
fails while another's succeeds the result dict holds `None` for the failing
name and the decoded-and-scaled value for the succeeding name. -/
theorem pollAll_isolates_failures
    (t : Transport) (regs : List RegisterDefinition)
    (hnd : (regs.map RegisterDefinition.name).Nodup)
    (hbanks : ∀ r ∈ regs, r.register_type = "holding" ∨ r.register_type = "input" ∨
      r.register_type = "coil" ∨ r.register_type = "discrete")
    (a b : RegisterDefinition) (v : ℚ) (ha : a ∈ regs) (hb : b ∈ regs)
    (hfail : (readConnected t a).2 = none)
    (hok : (readConnected t b).2 = some v) :
    read_all_registers_m (some t) regs = Except.ok (read_all_registers t regs) ∧
    (read_all_registers t regs).1 =
      regs.map (fun r => ReadCall.mk r.register_type r.address r.count) ∧
    List.lookup a.name (read_all_registers t regs).2 = some none ∧
    List.lookup b.name (read_all_registers t regs).2 = some (some v) ∧
    ((read_all_registers t regs).2).map Prod.fst = regs.map RegisterDefinition.name := by
  refine ⟨rfl, read_all_fst_eq t regs hbanks, ?_, ?_, ?_⟩
  · rw [read_all_snd_eq t regs hnd, lookup_map_name regs _ a hnd ha, hfail]
  · rw [read_all_snd_eq t regs hnd, lookup_map_name regs _ b hnd hb, hok]
  · rw [read_all_snd_eq t regs hnd]
    simp

/-- Witness for C3: two holding specs, the first one erroring, the second
returning raw word 7 at unit scale. -/
theorem pollAll_isolates_failures_witness :
    List.lookup ("bad") (read_all_registers
      (Transport.mk true (fun _ addr _ =>
        if addr = 0 then Except.ok (ModbusResponse.mk true none none)
        else Except.ok (ModbusResponse.mk false (some [7]) none)))
      [RegisterDefinition.mk 0 ("bad") ("") ("holding") 1 ("uint16") 1 (""),
       RegisterDefinition.mk 1 ("good") ("") ("holding") 1 ("uint16") 1 ("")]).2 =
      some none ∧
    List.lookup ("good") (read_all_registers
      (Transport.mk true (fun _ addr _ =>
        if addr = 0 then Except.ok (ModbusResponse.mk true none none)
        else Except.ok (ModbusResponse.mk false (some [7]) none)))
      [RegisterDefinition.mk 0 ("bad") ("") ("holding") 1 ("uint16") 1 (""),
       RegisterDefinition.mk 1 ("good") ("") ("holding") 1 ("uint16") 1 ("")]).2 =
      some (some 7) := by
  have h := pollAll_isolates_failures
    (Transport.mk true (fun _ addr _ =>
      if addr = 0 then Except.ok (ModbusResponse.mk true none none)
      else Except.ok (ModbusResponse.mk false (some [7]) none)))
    [RegisterDefinition.mk 0 ("bad") ("") ("holding") 1 ("uint16") 1 (""),
     RegisterDefinition.mk 1 ("good") ("") ("holding") 1 ("uint16") 1 ("")]
    (by simp) (by decide)
    (RegisterDefinition.mk 0 ("bad") ("") ("holding") 1 ("uint16") 1 (""))
    (RegisterDefinition.mk 1 ("good") ("") ("holding") 1 ("uint16") 1 (""))
    7 (by simp) (by simp) (by rfl) (by norm_num [readConnected, readDispatched,
      responseWords, convert_raw_value])
  exact ⟨h.2.2.1, h.2.2.2.1⟩

/-- C10: over pairwise-distinct names the poll result has exactly one entry
per configured spec — its keys are the spec names in declaration order — and
each spec's entry holds that spec's (possibly `None`) value. -/
theorem pollAll_complete_keyset
    (t : Transport) (regs : List RegisterDefinition)
    (hnd : (regs.map RegisterDefinition.name).Nodup) :
    ((read_all_registers t regs).2).map Prod.fst = regs.map RegisterDefinition.name ∧
    ∀ r ∈ regs, List.lookup r.name (read_all_registers t regs).2 =
      some ((readConnected t r).2) := by
  constructor
  · rw [read_all_snd_eq t regs hnd]
    simp
  · intro r hr
    rw [read_all_snd_eq t regs hnd]
    exact lookup_map_name regs _ r hnd hr

/-- Witness for C10: every read raising, one configured spec — the name
still appears, with value `None`. -/
theorem pollAll_complete_keyset_witness :
    ((read_all_registers
      (Transport.mk true (fun _ _ _ => Except.error PyExn.modbusException))
      [RegisterDefinition.mk 0 ("t1") ("") ("holding") 1 ("uint16") 1 ("")]).2).map
        Prod.fst = [("t1")] := by
  have h := pollAll_complete_keyset
    (Transport.mk true (fun _ _ _ => Except.error PyExn.modbusException))
    [RegisterDefinition.mk 0 ("t1") ("") ("holding") 1 ("uint16") 1 ("")]
    (by simp)
  exact h.1

/-- C7: `read_register` with a name matching no configured spec returns
`None` without raising, whatever the client state; and when the name does
match a spec whose read fails, the result is again `Ok None`. -/
theorem pollOne_unknown_name
    (client : Option Transport) (regs : List RegisterDefinition) (name : String) :
    ((∀ r ∈ regs, r.name ≠ name) → read_register client regs name = Except.ok none) ∧
    (∀ (t : Transport) (reg : RegisterDefinition), client = some t →
      regs.find? (fun r => r.name == name) = some reg →
      (readConnected t reg).2 = none →
      read_register client regs name = Except.ok none) := by
  constructor
  · intro h
    have hfind : regs.find? (fun r => r.name == name) = none := by
      rw [List.find?_eq_none]
      intro r hr
      simpa using h r hr
    simp [read_register, hfind]
  · intro t reg hc hf hv
    subst hc
    simp [read_register, hf, _read_register, hv]

/-- Witness for C7: empty register set, no client, unknown name. -/
theorem pollOne_unknown_name_witness :
    read_register none [] ("nonexistent") = Except.ok none :=
  (pollOne_unknown_name none [] ("nonexistent")).1 (by simp)

/-- The raw value a scan records: a 16-bit word for holding/input banks, a
bit for coil/discrete banks. -/
inductive RawReading where
  | word (w : Nat)
  | bit (b : Bool)
deriving DecidableEq

/-- Python `range(lo, hi)` over integers. -/
def intRange (lo hi : Int) : List Int :=
  (List.range (hi - lo).toNat).map (fun (i : Nat) => lo + (i : Int))

/-- The per-address body of `scan_registers`: issue the single-word or
single-bit read, drop the address on a transport exception or an
`isError()` response, take `result.bits[0]` for bit banks and
`result.registers[0]` for word banks (a missing or empty payload raises,
is caught, and drops the address). -/
def probeValue (t : Transport) (rtype : String) (address : Int) : Option RawReading :=
  match t.read rtype address 1 with
  | Except.error _ => none
  | Except.ok resp =>
    if resp.isError then none
    else if rtype = "coil" ∨ rtype = "discrete" then
      match resp.bits with
      | some (b :: _) => some (RawReading.bit b)
      | _ => none
    else
      match resp.registers with
      | some (w :: _) => some (RawReading.word w)
      | _ => none

/-- One loop iteration of `scan_registers`: for a known bank kind the read
is issued and a successful probe appends `(address, value)`; an unknown
bank kind prints and continues without any read. -/
def scanStep (t : Transport) (rtype : String)
    (acc : List (Int × RawReading) × List ReadCall) (address : Int) :
    List (Int × RawReading) × List ReadCall :=
  if rtype = "holding" ∨ rtype = "input" ∨ rtype = "coil" ∨ rtype = "discrete" then
    match probeValue t rtype address with
    | some v => (acc.1 ++ [(address, v)], acc.2 ++ [ReadCall.mk rtype address 1])
    | none => (acc.1, acc.2 ++ [ReadCall.mk rtype address 1])
  else (acc.1, acc.2)

/-- `scan_registers.scan_registers`: connect (raising `ConnectionError`
before any read if that fails), probe every address of `[start, end)` under
`try/finally`, and close the client exactly once whenever it was connected.
Returns (outcome, issued reads, close count). -/
def scan_registers (t : Transport) (register_type : String)
    (start_address end_address : Int) :
    Except PyExn (List (Int × RawReading)) × List ReadCall × Nat :=
  if t.connectOk then
    let res := (intRange start_address end_address).foldl
      (scanStep t register_type) ([], [])
    (Except.ok res.1, res.2, 1)
  else (Except.error PyExn.connectionError, [], 0)

/-- The scan fold in closed form for a known bank kind. -/
lemma scan_foldl (t : Transport) (rtype : String)
    (hb : rtype = "holding" ∨ rtype = "input" ∨ rtype = "coil" ∨ rtype = "discrete")
    (l : List Int) (acc : List (Int × RawReading) × List ReadCall) :
    l.foldl (scanStep t rtype) acc =
      (acc.1 ++ l.filterMap (fun a => (probeValue t rtype a).map (fun v => (a, v))),
        acc.2 ++ l.map (fun a => ReadCall.mk rtype a 1)) := by
  induction l generalizing acc with
  | nil => simp
  | cons a as ih =>
    simp only [List.foldl_cons, scanStep, if_pos hb]
    cases hpv : probeValue t rtype a <;>
      simp [hpv, ih, List.append_assoc, List.filterMap_cons]

/-- C8: for a known bank kind, a failed connect raises the connection error
before any read is issued; on a successful connect the scan probes exactly
the addresses of `[start, end)` once each, in the listed order, closes the
transport exactly once, and returns exactly the successfully-probed
`(address, value)` pairs, omitting every address whose read errors or
raises; the probed address list is strictly ascending and holds exactly the
integers of `[start, end)`. -/
theorem scan_probes_ascending (t : Transport) (rtype : String) (lo hi : Int)
    (hb : rtype = "holding" ∨ rtype = "input" ∨ rtype = "coil" ∨ rtype = "discrete") :
    (t.connectOk = false →
      scan_registers t rtype lo hi = (Except.error PyExn.connectionError, [], 0)) ∧
    (t.connectOk = true →
      (scan_registers t rtype lo hi).2.1 =
        (intRange lo hi).map (fun a => ReadCall.mk rtype a 1) ∧
      (scan_registers t rtype lo hi).2.2 = 1 ∧
      (scan_registers t rtype lo hi).1 =
        Except.ok ((intRange lo hi).filterMap
          (fun a => (probeValue t rtype a).map (fun v => (a, v))))) ∧
    List.Pairwise (· < ·) (intRange lo hi) ∧
    (∀ a : Int, a ∈ intRange lo hi ↔ (lo ≤ a ∧ a < hi)) := by
  refine ⟨?_, ?_, ?_, ?_⟩
  · intro h
    simp [scan_registers, h]
  · intro h
    have hfold := scan_foldl t rtype hb (intRange lo hi) ([], [])
    simp [scan_registers, h, hfold]
  · unfold intRange
    refine List.Pairwise.map _ ?_ (List.pairwise_lt_range _)
    intro a b hab
    omega
  · intro a
    simp only [intRange, List.mem_map, List.mem_range]
    constructor
    · rintro ⟨i, hilt, rfl⟩
      constructor
      · omega
      · omega
    · rintro ⟨h1, h2⟩
      refine ⟨(a - lo).toNat, ?_, ?_⟩
      · omega
      · omega

/-- A connected transport whose every read raises a Modbus exception. -/
def raisingTransport : Transport :=
  { connectOk := true,
    read := fun _ _ _ => Except.error PyExn.modbusException }

/-- Witness for C8: scanning `[0, 10)` with every read raising yields the
empty result and still closes the transport exactly once. -/
theorem scan_probes_ascending_witness :
    (scan_registers raisingTransport ("holding") 0 10).1 = Except.ok [] ∧
    (scan_registers raisingTransport ("holding") 0 10).2.2 = 1 := by
  have h := (scan_probes_ascending raisingTransport ("holding") 0 10
    (Or.inl rfl)).2.1 rfl
  refine ⟨?_, h.2.1⟩
  rw [h.2.2]
  rfl

/-- The Python `with` statement over an `EW1Reader`: `__enter__` connects
and raises `ConnectionError` on failure (no `__exit__` runs then); after a
successful entry the body runs and `__exit__` disconnects exactly once on
both the normal and the raising path, returning `False` so a body exception
propagates unchanged. Returns (outcome, number of `close()` calls). -/
def withReader {α : Type} (t : Transport) (body : Transport → Except PyExn α) :
    Except PyExn α × Nat :=
  if t.connectOk then
    (match body t with
      | Except.ok a => Except.ok a
      | Except.error e => Except.error e, 1)
  else (Except.error PyExn.connectionError, 0)

/-- `logger.log_once`'s polling cycle: `with reader:` around
`read_all_registers`. -/
def pollCycle (t : Transport) (regs : List RegisterDefinition) :
    Except PyExn (List ReadCall × List (String × Option ℚ)) × Nat :=
  withReader t (fun tr => read_all_registers_m (some tr) regs)

/-- C9: on a connectable transport the polling cycle opens the session,
runs the register reads, and closes exactly once; and for an arbitrary body
— including one that raises — the scoped acquisition still closes exactly
once and returns the body's outcome unchanged (the exception is not
suppressed). -/
theorem pollCycle_scoped_release {α : Type} (t : Transport)
    (regs : List RegisterDefinition) (body : Transport → Except PyExn α)
    (h : t.connectOk = true) :
    pollCycle t regs = (Except.ok (read_all_registers t regs), 1) ∧
    withReader t body = (body t, 1) := by
  constructor
  · unfold pollCycle withReader
    rw [if_pos h]
    rfl
  · unfold withReader
    rw [if_pos h]
    cases hb : body t <;> simp

/-- A body that raises a generic exception. -/
def raisingBody : Transport → Except PyExn Unit :=
  fun _ => Except.error PyExn.otherException

/-- Witness for C9: empty register set and a raising body on
`raisingTransport`. -/
theorem pollCycle_scoped_release_witness :
    pollCycle raisingTransport [] = (Except.ok ([], []), 1) ∧
    withReader raisingTransport raisingBody = (Except.error PyExn.otherException, 1) := by
  have h := pollCycle_scoped_release raisingTransport [] raisingBody rfl
  exact ⟨h.1, h.2⟩

end HjorthagshojdenLog
